import Mathlib

/-!
# Verification of the canvas-experiments beat detector and demo runner

Shallow embedding of `src/music-visualization/js/BeatDetector.js` and of the
`DemoRunner` lifecycle class (`src/visual-effects-gallery/js/utils/MathUtils.js`,
second document) into Lean 4, with proofs of the behavioural properties stated
in the repository specification.

Numbers are modelled by `ℚ` (the JS code performs ordinary IEEE arithmetic on
values of moderate size; we model it exactly over the rationals).  The one
non-rational operation, `Math.sqrt` inside the adaptive-threshold comparison
`bassEnergy > avgEnergy + sensitivity * stdDev`, is eliminated by squaring:
for `0 ≤ sensitivity` and `0 ≤ variance` the comparison is equivalent to
`avgEnergy < bassEnergy ∧ sensitivity² · variance < (bassEnergy - avgEnergy)²`,
which is decidable over `ℚ`.  The lemma `exceedsThreshold_iff_sqrt` below
proves this equivalence against `Real.sqrt`.
-/

namespace CanvasExperiments

/-- The options bag passed to `new BeatDetector(options)`.  Each field is
`none` when the caller omitted it. -/
structure BeatOptions where
  sensitivity : Option ℚ
  decayRate : Option ℚ
  cooldownMs : Option ℚ
  historyLength : Option ℕ

/-- The empty options bag `{}` (all fields omitted). -/
def BeatOptions.default : BeatOptions := ⟨none, none, none, none⟩

/-- JS `options.x || dflt` on a numeric field: a missing field or the falsy
value `0` falls back to the default. -/
def orDefault (v : Option ℚ) (dflt : ℚ) : ℚ :=
  match v with
  | none => dflt
  | some x => if x = 0 then dflt else x

/-- JS `options.x || dflt` for the (integer-valued) `historyLength` field. -/
def orDefaultNat (v : Option ℕ) (dflt : ℕ) : ℕ :=
  match v with
  | none => dflt
  | some x => if x = 0 then dflt else x

/-- The full mutable state of a `BeatDetector` instance.  The first four
fields are the configuration fixed by the constructor; the rest mirror the
instance fields `energyHistory`, `lastBeatTime`, `beatIntensity`, `_isBeat`,
`beatCount`, `beatTimes`, `estimatedBPM`. -/
structure BeatDetector where
  sensitivity : ℚ
  decayRate : ℚ
  cooldownMs : ℚ
  historyLength : ℕ
  energyHistory : List ℚ
  lastBeatTime : ℚ
  beatIntensity : ℚ
  isBeatFlag : Bool
  beatCount : ℕ
  beatTimes : List ℚ
  estimatedBPM : ℤ
  deriving DecidableEq

/-- The `BeatDetector` constructor: resolve each option with its `||` default
(`1.4`, `0.93`, `180`, `30`) and zero-initialise the state. -/
def mkBeatDetector (o : BeatOptions) : BeatDetector :=
  { sensitivity := orDefault o.sensitivity (7/5)
    decayRate := orDefault o.decayRate (93/100)
    cooldownMs := orDefault o.cooldownMs 180
    historyLength := orDefaultNat o.historyLength 30
    energyHistory := []
    lastBeatTime := 0
    beatIntensity := 0
    isBeatFlag := false
    beatCount := 0
    beatTimes := []
    estimatedBPM := 0 }

/-- `arr.push(x); if (arr.length > cap) arr.shift();` — append and drop the
oldest element when the capacity is exceeded. -/
def pushCapped (cap : ℕ) (l : List ℚ) (x : ℚ) : List ℚ :=
  let l2 := l ++ [x]
  if cap < l2.length then l2.tail else l2

/-- The comparison `e > avg + sens * Math.sqrt(variance)` of the source,
encoded without square roots (see `exceedsThreshold_iff_sqrt`). -/
def exceedsThreshold (e avg sens variance : ℚ) : Prop :=
  avg < e ∧ sens ^ 2 * variance < (e - avg) ^ 2

instance (e avg sens variance : ℚ) : Decidable (exceedsThreshold e avg sens variance) :=
  inferInstanceAs (Decidable (avg < e ∧ sens ^ 2 * variance < (e - avg) ^ 2))

/-- Consecutive differences `bt[i] - bt[i-1]`, `i = 1 .. len-1`, of the
beat-time list (the loop body of `updateTempoEstimate` before filtering). -/
def intervalsOf : List ℚ → List ℚ
  | [] => []
  | [_] => []
  | a :: b :: rest => (b - a) :: intervalsOf (b :: rest)

/-- `BeatDetector.updateTempoEstimate()`: with at least 4 recorded beat
times, keep the consecutive intervals strictly between 200 and 2000 ms, and
with at least 3 of them set `estimatedBPM` to `Math.round(60000 / median)`
of the ascending-sorted valid intervals; otherwise leave the state alone.
JS `Array.sort` with an ascending comparator is modelled by
`List.insertionSort (· ≤ ·)` (any ascending sort of rationals yields the
same list). -/
def BeatDetector.updateTempoEstimate (d : BeatDetector) : BeatDetector :=
  if d.beatTimes.length < 4 then d
  else
    let intervals := (intervalsOf d.beatTimes).filter fun i => decide (200 < i ∧ i < 2000)
    if intervals.length < 3 then d
    else
      let sorted := List.insertionSort (· ≤ ·) intervals
      let medianInterval := sorted.getD (sorted.length / 2) 0
      { d with estimatedBPM := round ((60000 : ℚ) / medianInterval) }

/-- `BeatDetector.update(bassEnergy, currentTime)`, translated clause by
clause from the source. -/
def BeatDetector.update (d : BeatDetector) (bassEnergy currentTime : ℚ) : BeatDetector :=
  let hist := pushCapped d.historyLength d.energyHistory bassEnergy
  if hist.length < 10 then
    { d with energyHistory := hist, isBeatFlag := false }
  else
    let avgEnergy := hist.sum / (hist.length : ℚ)
    let variance := (hist.map fun n => (n - avgEnergy) ^ 2).sum / (hist.length : ℚ)
    let timeSinceLastBeat := currentTime - d.lastBeatTime
    if exceedsThreshold bassEnergy avgEnergy d.sensitivity variance ∧
        avgEnergy * d.sensitivity < bassEnergy ∧
        d.cooldownMs < timeSinceLastBeat then
      let d2 : BeatDetector :=
        { d with energyHistory := hist
                 isBeatFlag := true
                 lastBeatTime := currentTime
                 beatCount := d.beatCount + 1
                 beatIntensity := min 1 ((bassEnergy - avgEnergy) / (avgEnergy + 1/100))
                 beatTimes := pushCapped 16 d.beatTimes currentTime }
      let d3 := d2.updateTempoEstimate
      { d3 with beatIntensity := d3.beatIntensity * d.decayRate }
    else
      { d with energyHistory := hist
               isBeatFlag := false
               beatIntensity := d.beatIntensity * d.decayRate }

/-- `isBeat()`. -/
def BeatDetector.isBeat (d : BeatDetector) : Bool := d.isBeatFlag

/-- `getBeatIntensity()`. -/
def BeatDetector.getBeatIntensity (d : BeatDetector) : ℚ := d.beatIntensity

/-- `getBPM()`. -/
def BeatDetector.getBPM (d : BeatDetector) : ℤ := d.estimatedBPM

/-- `getBeatCount()`. -/
def BeatDetector.getBeatCount (d : BeatDetector) : ℕ := d.beatCount

/-- `reset()`: clear all mutable state, keep the configuration. -/
def BeatDetector.reset (d : BeatDetector) : BeatDetector :=
  { d with energyHistory := []
           beatTimes := []
           lastBeatTime := 0
           beatIntensity := 0
           isBeatFlag := false
           beatCount := 0
           estimatedBPM := 0 }

/-- Fold a list of `(bassEnergy, currentTime)` inputs through `update`. -/
def runDetector (d : BeatDetector) : List (ℚ × ℚ) → BeatDetector
  | [] => d
  | (e, t) :: rest => runDetector (d.update e t) rest

/-- Faithfulness of the squared threshold comparison: for a nonnegative
sensitivity and variance, `exceedsThreshold` decides exactly the source
comparison `bassEnergy > avgEnergy + sensitivity * Math.sqrt(variance)`. -/
theorem exceedsThreshold_iff_sqrt (e avg sens variance : ℚ)
    (hs : 0 ≤ sens) (hv : 0 ≤ variance) :
    exceedsThreshold e avg sens variance ↔
      (avg : ℝ) + (sens : ℝ) * Real.sqrt (variance : ℝ) < (e : ℝ) := by
  have hvR : (0 : ℝ) ≤ (variance : ℝ) := by exact_mod_cast hv
  have hsR : (0 : ℝ) ≤ (sens : ℝ) := by exact_mod_cast hs
  have hsq : (0 : ℝ) ≤ Real.sqrt (variance : ℝ) := Real.sqrt_nonneg _
  constructor
  · rintro ⟨h1, h2⟩
    have h1R : (avg : ℝ) < (e : ℝ) := by exact_mod_cast h1
    have h2R : ((sens : ℝ)) ^ 2 * (variance : ℝ) < ((e : ℝ) - (avg : ℝ)) ^ 2 := by
      exact_mod_cast h2
    have hkey : (sens : ℝ) * Real.sqrt (variance : ℝ) < (e : ℝ) - (avg : ℝ) := by
      have hL : Real.sqrt ((sens : ℝ) ^ 2 * (variance : ℝ)) <
          Real.sqrt (((e : ℝ) - (avg : ℝ)) ^ 2) :=
        Real.sqrt_lt_sqrt (by positivity) h2R
      have e1 : Real.sqrt ((sens : ℝ) ^ 2 * (variance : ℝ)) =
          (sens : ℝ) * Real.sqrt (variance : ℝ) := by
        rw [Real.sqrt_mul (by positivity), Real.sqrt_sq hsR]
      have e2 : Real.sqrt (((e : ℝ) - (avg : ℝ)) ^ 2) = (e : ℝ) - (avg : ℝ) :=
        Real.sqrt_sq (by linarith)
      rw [e1, e2] at hL
      exact hL
    linarith
  · intro h
    have h1R : (avg : ℝ) < (e : ℝ) := by nlinarith [mul_nonneg hsR hsq]
    refine ⟨by exact_mod_cast h1R, ?_⟩
    have hkey : (sens : ℝ) * Real.sqrt (variance : ℝ) < (e : ℝ) - (avg : ℝ) := by
      linarith
    have h2R : ((sens : ℝ)) ^ 2 * (variance : ℝ) < ((e : ℝ) - (avg : ℝ)) ^ 2 := by
      have hsqv : ((sens : ℝ) * Real.sqrt (variance : ℝ)) ^ 2 =
          (sens : ℝ) ^ 2 * (variance : ℝ) := by
        rw [mul_pow, Real.sq_sqrt hvR]
      nlinarith [mul_nonneg hsR hsq]
    exact_mod_cast h2R

/-! ## Basic structural lemmas -/

@[simp] theorem tempo_sensitivity (d : BeatDetector) :
    d.updateTempoEstimate.sensitivity = d.sensitivity := by
  unfold BeatDetector.updateTempoEstimate
  dsimp only
  split
  · rfl
  · split
    · rfl
    · rfl

@[simp] theorem tempo_decayRate (d : BeatDetector) :
    d.updateTempoEstimate.decayRate = d.decayRate := by
  unfold BeatDetector.updateTempoEstimate
  dsimp only
  split
  · rfl
  · split
    · rfl
    · rfl

@[simp] theorem tempo_cooldownMs (d : BeatDetector) :
    d.updateTempoEstimate.cooldownMs = d.cooldownMs := by
  unfold BeatDetector.updateTempoEstimate
  dsimp only
  split
  · rfl
  · split
    · rfl
    · rfl

@[simp] theorem tempo_historyLength (d : BeatDetector) :
    d.updateTempoEstimate.historyLength = d.historyLength := by
  unfold BeatDetector.updateTempoEstimate
  dsimp only
  split
  · rfl
  · split
    · rfl
    · rfl

@[simp] theorem tempo_energyHistory (d : BeatDetector) :
    d.updateTempoEstimate.energyHistory = d.energyHistory := by
  unfold BeatDetector.updateTempoEstimate
  dsimp only
  split
  · rfl
  · split
    · rfl
    · rfl

@[simp] theorem tempo_lastBeatTime (d : BeatDetector) :
    d.updateTempoEstimate.lastBeatTime = d.lastBeatTime := by
  unfold BeatDetector.updateTempoEstimate
  dsimp only
  split
  · rfl
  · split
    · rfl
    · rfl

@[simp] theorem tempo_beatIntensity (d : BeatDetector) :
    d.updateTempoEstimate.beatIntensity = d.beatIntensity := by
  unfold BeatDetector.updateTempoEstimate
  dsimp only
  split
  · rfl
  · split
    · rfl
    · rfl

@[simp] theorem tempo_isBeatFlag (d : BeatDetector) :
    d.updateTempoEstimate.isBeatFlag = d.isBeatFlag := by
  unfold BeatDetector.updateTempoEstimate
  dsimp only
  split
  · rfl
  · split
    · rfl
    · rfl

@[simp] theorem tempo_beatCount (d : BeatDetector) :
    d.updateTempoEstimate.beatCount = d.beatCount := by
  unfold BeatDetector.updateTempoEstimate
  dsimp only
  split
  · rfl
  · split
    · rfl
    · rfl

@[simp] theorem tempo_beatTimes (d : BeatDetector) :
    d.updateTempoEstimate.beatTimes = d.beatTimes := by
  unfold BeatDetector.updateTempoEstimate
  dsimp only
  split
  · rfl
  · split
    · rfl
    · rfl

@[simp] theorem update_sensitivity (d : BeatDetector) (e t : ℚ) :
    (d.update e t).sensitivity = d.sensitivity := by
  simp only [BeatDetector.update]
  split
  · rfl
  · split
    · simp
    · rfl

@[simp] theorem update_decayRate (d : BeatDetector) (e t : ℚ) :
    (d.update e t).decayRate = d.decayRate := by
  simp only [BeatDetector.update]
  split
  · rfl
  · split
    · simp
    · rfl

@[simp] theorem update_cooldownMs (d : BeatDetector) (e t : ℚ) :
    (d.update e t).cooldownMs = d.cooldownMs := by
  simp only [BeatDetector.update]
  split
  · rfl
  · split
    · simp
    · rfl

@[simp] theorem update_historyLength (d : BeatDetector) (e t : ℚ) :
    (d.update e t).historyLength = d.historyLength := by
  simp only [BeatDetector.update]
  split
  · rfl
  · split
    · simp
    · rfl

theorem pushCapped_mem {cap : ℕ} {l : List ℚ} {x y : ℚ}
    (h : y ∈ pushCapped cap l x) : y ∈ l ∨ y = x := by
  unfold pushCapped at h
  dsimp only at h
  split at h
  · exact (List.mem_append.mp (List.mem_of_mem_tail h)).imp id List.mem_singleton.mp
  · exact (List.mem_append.mp h).imp id List.mem_singleton.mp

theorem pushCapped_length_le (cap : ℕ) (l : List ℚ) (x : ℚ) :
    (pushCapped cap l x).length ≤ l.length + 1 := by
  unfold pushCapped
  dsimp only
  split
  · simp [List.length_tail]
  · simp

theorem length_le_pushCapped (cap : ℕ) (l : List ℚ) (x : ℚ) :
    l.length ≤ (pushCapped cap l x).length := by
  unfold pushCapped
  dsimp only
  split
  · simp [List.length_tail]
  · simp

/-- In all three branches of `update` the new `energyHistory` is the pushed
(and possibly trimmed) window. -/
@[simp] theorem update_energyHistory (d : BeatDetector) (e t : ℚ) :
    (d.update e t).energyHistory = pushCapped d.historyLength d.energyHistory e := by
  simp only [BeatDetector.update]
  split
  · rfl
  · split
    · simp
    · rfl

/-- `lastBeatTime` is either untouched, or set to the current timestamp with
the cooldown having elapsed. -/
theorem update_lastBeatTime_or (d : BeatDetector) (e t : ℚ) :
    (d.update e t).lastBeatTime = d.lastBeatTime ∨
      ((d.update e t).lastBeatTime = t ∧ d.cooldownMs < t - d.lastBeatTime) := by
  simp only [BeatDetector.update]
  split
  · exact Or.inl rfl
  · split
    · next h => exact Or.inr ⟨by simp, h.2.2⟩
    · exact Or.inl rfl

/-- A reported beat implies the cooldown had elapsed and records the
current timestamp as the last beat time. -/
theorem update_isBeat_elim {d : BeatDetector} {e t : ℚ}
    (h : (d.update e t).isBeatFlag = true) :
    d.cooldownMs < t - d.lastBeatTime ∧ (d.update e t).lastBeatTime = t := by
  revert h
  simp only [BeatDetector.update]
  split
  · intro h
    exact absurd h (by simp)
  · split
    · next hc => exact fun _ => ⟨hc.2.2, by simp⟩
    · intro h
      exact absurd h (by simp)

/-- With fewer than 9 samples already in the window, this update cannot
report a beat (warm-up guard). -/
theorem update_small_hist {d : BeatDetector} (e t : ℚ)
    (h : d.energyHistory.length + 1 < 10) :
    (d.update e t).isBeatFlag = false := by
  have hlen : (pushCapped d.historyLength d.energyHistory e).length < 10 :=
    lt_of_le_of_lt (pushCapped_length_le _ _ _) h
  simp only [BeatDetector.update, if_pos hlen]

@[simp] theorem runDetector_sensitivity (l : List (ℚ × ℚ)) (d : BeatDetector) :
    (runDetector d l).sensitivity = d.sensitivity := by
  induction l generalizing d with
  | nil => rfl
  | cons p rest ih =>
    obtain ⟨e, t⟩ := p
    simp [runDetector, ih]

@[simp] theorem runDetector_decayRate (l : List (ℚ × ℚ)) (d : BeatDetector) :
    (runDetector d l).decayRate = d.decayRate := by
  induction l generalizing d with
  | nil => rfl
  | cons p rest ih =>
    obtain ⟨e, t⟩ := p
    simp [runDetector, ih]

@[simp] theorem runDetector_cooldownMs (l : List (ℚ × ℚ)) (d : BeatDetector) :
    (runDetector d l).cooldownMs = d.cooldownMs := by
  induction l generalizing d with
  | nil => rfl
  | cons p rest ih =>
    obtain ⟨e, t⟩ := p
    simp [runDetector, ih]

@[simp] theorem runDetector_historyLength (l : List (ℚ × ℚ)) (d : BeatDetector) :
    (runDetector d l).historyLength = d.historyLength := by
  induction l generalizing d with
  | nil => rfl
  | cons p rest ih =>
    obtain ⟨e, t⟩ := p
    simp [runDetector, ih]

/-- Once at least `c`, `lastBeatTime` stays at least `c` along any run whose
timestamps are all at least `c`. -/
theorem runDetector_lastBeatTime_ge {c : ℚ} {l : List (ℚ × ℚ)} {d : BeatDetector}
    (hts : ∀ p ∈ l, c ≤ p.2) (hd : c ≤ d.lastBeatTime) :
    c ≤ (runDetector d l).lastBeatTime := by
  induction l generalizing d with
  | nil => exact hd
  | cons p rest ih =>
    obtain ⟨e, t⟩ := p
    refine ih (fun q hq => hts q (List.mem_cons_of_mem _ hq)) ?_
    rcases update_lastBeatTime_or d e t with h | h
    · rw [h]; exact hd
    · rw [h.1]; exact hts (e, t) (List.mem_cons_self _ _)

theorem runDetector_hist_len_le (l : List (ℚ × ℚ)) (d : BeatDetector) :
    (runDetector d l).energyHistory.length ≤ d.energyHistory.length + l.length := by
  induction l generalizing d with
  | nil => simp [runDetector]
  | cons p rest ih =>
    obtain ⟨e, t⟩ := p
    calc (runDetector (d.update e t) rest).energyHistory.length
        ≤ (d.update e t).energyHistory.length + rest.length := ih _
      _ ≤ (d.energyHistory.length + 1) + rest.length := by
          simp only [update_energyHistory]
          exact Nat.add_le_add_right (pushCapped_length_le _ _ _) _
      _ = d.energyHistory.length + ((e, t) :: rest).length := by simp [Nat.add_assoc, Nat.add_comm 1]

theorem runDetector_append (d : BeatDetector) (l₁ l₂ : List (ℚ × ℚ)) :
    runDetector d (l₁ ++ l₂) = runDetector (runDetector d l₁) l₂ := by
  induction l₁ generalizing d with
  | nil => rfl
  | cons p rest ih =>
    obtain ⟨e, t⟩ := p
    simp only [List.cons_append, runDetector]
    exact ih _

/-! ## Warm-up guard (C3) -/

theorem runDetector_no_beat_of_short {d : BeatDetector} (hh : d.energyHistory = [])
    (hf : d.isBeatFlag = false) {l : List (ℚ × ℚ)} (hl : l.length < 10) :
    (runDetector d l).isBeatFlag = false := by
  rcases List.eq_nil_or_concat l with rfl | ⟨L, b, rfl⟩
  · exact hf
  · obtain ⟨e, t⟩ := b
    rw [List.concat_eq_append, runDetector_append]
    show ((runDetector d L).update e t).isBeatFlag = false
    apply update_small_hist
    have h1 := runDetector_hist_len_le L d
    rw [hh] at h1
    simp only [List.length_concat] at hl
    simp only [List.length_nil, Nat.zero_add] at h1
    omega

/-- C3: with fewer than 10 samples pushed since construction or reset,
`isBeat()` is false after every update, whatever the inputs were. -/
theorem claim_C3_warmup_no_beat :
    (∀ (o : BeatOptions) (l : List (ℚ × ℚ)), l.length < 10 →
      (runDetector (mkBeatDetector o) l).isBeat = false) ∧
    (∀ (d : BeatDetector) (l : List (ℚ × ℚ)), l.length < 10 →
      (runDetector d.reset l).isBeat = false) :=
  ⟨fun _ _ hl => runDetector_no_beat_of_short rfl rfl hl,
   fun _ _ hl => runDetector_no_beat_of_short rfl rfl hl⟩

/-- Witness for C3 at a concrete input. -/
theorem claim_C3_witness :
    ([((1 : ℚ), (1 : ℚ))].length < 10) ∧
      (runDetector (mkBeatDetector BeatOptions.default) [(1, 1)]).isBeat = false :=
  ⟨by norm_num, claim_C3_warmup_no_beat.1 BeatOptions.default [(1, 1)] (by norm_num)⟩

/-! ## Constant input never beats (C4) -/

theorem sum_of_const {c : ℚ} : ∀ {l : List ℚ}, (∀ x ∈ l, x = c) → l.sum = l.length * c := by
  intro l
  induction l with
  | nil => intro _; simp
  | cons a rest ih =>
    intro h
    have ha : a = c := h a (List.mem_cons_self _ _)
    have hr := ih fun x hx => h x (List.mem_cons_of_mem _ hx)
    simp [ha, hr]
    ring

theorem update_const_no_beat {d : BeatDetector} {c t : ℚ}
    (hh : ∀ x ∈ d.energyHistory, x = c) :
    (d.update c t).isBeatFlag = false ∧ ∀ x ∈ (d.update c t).energyHistory, x = c := by
  have hh2 : ∀ x ∈ pushCapped d.historyLength d.energyHistory c, x = c := fun x hx =>
    (pushCapped_mem hx).elim (hh x) id
  refine ⟨?_, by simpa only [update_energyHistory] using hh2⟩
  simp only [BeatDetector.update]
  split
  · rfl
  · next hlen =>
    split
    · next hcond =>
      exfalso
      obtain ⟨⟨h1, -⟩, -⟩ := hcond
      have hl0 : ((pushCapped d.historyLength d.energyHistory c).length : ℚ) ≠ 0 :=
        Nat.cast_ne_zero.mpr (by omega)
      rw [sum_of_const hh2, mul_div_cancel_left₀ c hl0] at h1
      exact lt_irrefl c h1
    · rfl

/-- C4: a detector fed any constant energy value never reports a beat, at
any point of the run. -/
theorem claim_C4_constant_energy_no_beat (o : BeatOptions) (c : ℚ) (ts : List ℚ) :
    (runDetector (mkBeatDetector o) (ts.map fun t => (c, t))).isBeat = false := by
  suffices h : ∀ d : BeatDetector, (∀ x ∈ d.energyHistory, x = c) → d.isBeatFlag = false →
      (runDetector d (ts.map fun t => (c, t))).isBeatFlag = false by
    exact h _ (by simp [mkBeatDetector]) rfl
  induction ts with
  | nil => exact fun d _ h2 => h2
  | cons t rest ih =>
    intro d h1 h2
    simp only [List.map_cons, runDetector]
    exact ih _ (update_const_no_beat h1).2 (update_const_no_beat h1).1

/-! ## Falsy option fields fall back to defaults (C9) -/

/-- C9: any configuration field passed as the falsy value `0` is silently
replaced by its built-in default (`1.4`, `0.93`, `180`, `30`), so the
constructed detector is identical to one built with the default value. -/
theorem claim_C9_falsy_options_defaulted (o : BeatOptions) :
    mkBeatDetector { o with sensitivity := some 0 } =
        mkBeatDetector { o with sensitivity := some (7/5) } ∧
    mkBeatDetector { o with decayRate := some 0 } =
        mkBeatDetector { o with decayRate := some (93/100) } ∧
    mkBeatDetector { o with cooldownMs := some 0 } =
        mkBeatDetector { o with cooldownMs := some 180 } ∧
    mkBeatDetector { o with historyLength := some 0 } =
        mkBeatDetector { o with historyLength := some 30 } ∧
    mkBeatDetector ⟨some 0, some 0, some 0, some 0⟩ = mkBeatDetector BeatOptions.default := by
  refine ⟨?_, ?_, ?_, ?_, ?_⟩ <;>
    norm_num [mkBeatDetector, orDefault, orDefaultNat, BeatOptions.default]

/-! ## No beat can be reported at or before the cooldown epoch (C10) -/

theorem no_beat_before_cooldown {d : BeatDetector} {l : List (ℚ × ℚ)} {e t : ℚ}
    (h0 : d.lastBeatTime = 0) (hts : ∀ p ∈ l, 0 ≤ p.2)
    (hb : (runDetector d (l ++ [(e, t)])).isBeatFlag = true) :
    d.cooldownMs < t := by
  rw [runDetector_append] at hb
  have hb' : ((runDetector d l).update e t).isBeatFlag = true := hb
  have h1 : (runDetector d l).cooldownMs < t - (runDetector d l).lastBeatTime :=
    (update_isBeat_elim hb').1
  have h2 : (0 : ℚ) ≤ (runDetector d l).lastBeatTime :=
    runDetector_lastBeatTime_ge hts (le_of_eq h0.symm)
  have h3 : (runDetector d l).cooldownMs = d.cooldownMs := runDetector_cooldownMs l d
  linarith [h1, h2, h3.symm.le, h3.le]

/-- C10: on a freshly constructed or freshly reset detector, with
non-negative input timestamps, a beat can only be reported at an update
whose timestamp strictly exceeds `cooldownMs`, because `lastBeatTime`
starts at `0`. -/
theorem claim_C10_first_beat_after_cooldown :
    (∀ (o : BeatOptions) (l : List (ℚ × ℚ)) (e t : ℚ),
      (∀ p ∈ l, 0 ≤ p.2) →
      (runDetector (mkBeatDetector o) (l ++ [(e, t)])).isBeat = true →
      (mkBeatDetector o).cooldownMs < t) ∧
    (∀ (d : BeatDetector) (l : List (ℚ × ℚ)) (e t : ℚ),
      (∀ p ∈ l, 0 ≤ p.2) →
      (runDetector d.reset (l ++ [(e, t)])).isBeat = true →
      d.cooldownMs < t) := by
  constructor
  · intro o l e t hts hb
    exact no_beat_before_cooldown (show (mkBeatDetector o).lastBeatTime = 0 from rfl) hts hb
  · intro d l e t hts hb
    exact no_beat_before_cooldown (d := d.reset) rfl hts hb

/-- Witness for C10: a run in which a beat actually fires (ten zero-energy
samples, then a unit spike at `t = 300`), placing the beat after the 180 ms
default cooldown. -/
theorem claim_C10_witness :
    (∀ p ∈ [((0:ℚ),(0:ℚ)),(0,1),(0,2),(0,3),(0,4),(0,5),(0,6),(0,7),(0,8),(0,9)], 0 ≤ p.2) ∧
    (runDetector (mkBeatDetector BeatOptions.default)
      ([((0:ℚ),(0:ℚ)),(0,1),(0,2),(0,3),(0,4),(0,5),(0,6),(0,7),(0,8),(0,9)] ++ [(1, 300)])).isBeat
        = true ∧
    (mkBeatDetector BeatOptions.default).cooldownMs < 300 := by
  have hts : ∀ p ∈ [((0:ℚ),(0:ℚ)),(0,1),(0,2),(0,3),(0,4),(0,5),(0,6),(0,7),(0,8),(0,9)],
      0 ≤ p.2 := by
    intro p hp
    fin_cases hp <;> norm_num
  have hb : (runDetector (mkBeatDetector BeatOptions.default)
      ([((0:ℚ),(0:ℚ)),(0,1),(0,2),(0,3),(0,4),(0,5),(0,6),(0,7),(0,8),(0,9)] ++ [(1, 300)])).isBeat
        = true := by
    norm_num [runDetector, BeatDetector.update, BeatDetector.updateTempoEstimate,
      BeatDetector.isBeat, pushCapped, exceedsThreshold, mkBeatDetector,
      BeatOptions.default, orDefault, orDefaultNat]
  exact ⟨hts, hb, claim_C10_first_beat_after_cooldown.1 BeatOptions.default _ 1 300 hts hb⟩

/-! ## Reset is observationally a fresh construction (C6) -/

theorem reset_runDetector (o : BeatOptions) (l₀ : List (ℚ × ℚ)) :
    (runDetector (mkBeatDetector o) l₀).reset = mkBeatDetector o := by
  have hs := runDetector_sensitivity l₀ (mkBeatDetector o)
  have hd := runDetector_decayRate l₀ (mkBeatDetector o)
  have hc := runDetector_cooldownMs l₀ (mkBeatDetector o)
  have hh := runDetector_historyLength l₀ (mkBeatDetector o)
  simp only [BeatDetector.reset, mkBeatDetector] at *
  rw [hs, hd, hc, hh]

/-- C6: after any run from a fresh detector, `reset()` followed by any
input sequence produces exactly the observable outputs (`isBeat`,
`getBeatIntensity`, `getBPM`, `getBeatCount`) of the same sequence run on a
freshly constructed detector with the same options. -/
theorem claim_C6_reset_observational (o : BeatOptions) (l₀ l : List (ℚ × ℚ)) :
    ((runDetector (runDetector (mkBeatDetector o) l₀).reset l).isBeat,
     (runDetector (runDetector (mkBeatDetector o) l₀).reset l).getBeatIntensity,
     (runDetector (runDetector (mkBeatDetector o) l₀).reset l).getBPM,
     (runDetector (runDetector (mkBeatDetector o) l₀).reset l).getBeatCount) =
    ((runDetector (mkBeatDetector o) l).isBeat,
     (runDetector (mkBeatDetector o) l).getBeatIntensity,
     (runDetector (mkBeatDetector o) l).getBPM,
     (runDetector (mkBeatDetector o) l).getBeatCount) := by
  rw [reset_runDetector]

/-! ## Beat intensity stays in the unit interval (C1) -/

theorem update_beatIntensity_bounds {d : BeatDetector} {e t : ℚ}
    (hdr0 : 0 ≤ d.decayRate) (hdr1 : d.decayRate ≤ 1)
    (hh : ∀ x ∈ d.energyHistory, 0 ≤ x) (he : 0 ≤ e)
    (hbi0 : 0 ≤ d.beatIntensity) (hbi1 : d.beatIntensity ≤ 1) :
    0 ≤ (d.update e t).beatIntensity ∧ (d.update e t).beatIntensity ≤ 1 := by
  have hh2 : ∀ x ∈ pushCapped d.historyLength d.energyHistory e, 0 ≤ x := fun x hx =>
    (pushCapped_mem hx).elim (hh x) (fun hxe => hxe ▸ he)
  simp only [BeatDetector.update]
  split
  · exact ⟨hbi0, hbi1⟩
  · split
    · next hcond =>
      obtain ⟨⟨h1, -⟩, -, -⟩ := hcond
      simp only [tempo_beatIntensity]
      have havg : 0 ≤ (pushCapped d.historyLength d.energyHistory e).sum /
          ((pushCapped d.historyLength d.energyHistory e).length : ℚ) :=
        div_nonneg (List.sum_nonneg hh2) (Nat.cast_nonneg _)
      set avg := (pushCapped d.historyLength d.energyHistory e).sum /
        ((pushCapped d.historyLength d.energyHistory e).length : ℚ) with havgdef
      have hr : 0 ≤ (e - avg) / (avg + 1/100) :=
        div_nonneg (by linarith) (by linarith)
      have hmin0 : 0 ≤ min 1 ((e - avg) / (avg + 1/100)) := le_min (by norm_num) hr
      have hmin1 : min 1 ((e - avg) / (avg + 1/100)) ≤ 1 := min_le_left _ _
      constructor
      · exact mul_nonneg hmin0 hdr0
      · nlinarith
    · refine ⟨mul_nonneg hbi0 hdr0, ?_⟩
      show d.beatIntensity * d.decayRate ≤ 1
      nlinarith

theorem runDetector_intensity_inv {l : List (ℚ × ℚ)} :
    ∀ {d : BeatDetector}, 0 ≤ d.decayRate → d.decayRate ≤ 1 →
    (∀ x ∈ d.energyHistory, 0 ≤ x) → 0 ≤ d.beatIntensity → d.beatIntensity ≤ 1 →
    (∀ p ∈ l, 0 ≤ p.1) →
    (∀ x ∈ (runDetector d l).energyHistory, 0 ≤ x) ∧
      0 ≤ (runDetector d l).beatIntensity ∧ (runDetector d l).beatIntensity ≤ 1 := by
  induction l with
  | nil => exact fun h1 h2 h3 h4 h5 _ => ⟨h3, h4, h5⟩
  | cons p rest ih =>
    obtain ⟨e, t⟩ := p
    intro d h1 h2 h3 h4 h5 h6
    simp only [runDetector]
    have he : 0 ≤ e := (h6 (e, t) (List.mem_cons_self _ _))
    have hb := update_beatIntensity_bounds (t := t) h1 h2 h3 he h4 h5
    have hhist : ∀ x ∈ (d.update e t).energyHistory, 0 ≤ x := by
      simp only [update_energyHistory]
      exact fun x hx => (pushCapped_mem hx).elim (h3 x) (fun hxe => hxe ▸ he)
    exact ih ((update_decayRate d e t).symm ▸ h1) ((update_decayRate d e t).symm ▸ h2)
      hhist hb.1 hb.2 (fun q hq => h6 q (List.mem_cons_of_mem _ hq))

/-- C1: for a detector whose resolved configuration has `0 ≤ sensitivity`
and `decayRate ∈ [0,1]` (the documented ranges; defaults `1.4` and `0.93`),
any run whose energies lie in `[0,1]` keeps `getBeatIntensity()` in
`[0,1]` after every update. -/
theorem claim_C1_beat_intensity_unit_interval (o : BeatOptions)
    (hs : 0 ≤ (mkBeatDetector o).sensitivity)
    (hdr0 : 0 ≤ (mkBeatDetector o).decayRate) (hdr1 : (mkBeatDetector o).decayRate ≤ 1)
    (l : List (ℚ × ℚ)) (hl : ∀ p ∈ l, 0 ≤ p.1 ∧ p.1 ≤ 1) :
    0 ≤ (runDetector (mkBeatDetector o) l).getBeatIntensity ∧
      (runDetector (mkBeatDetector o) l).getBeatIntensity ≤ 1 := by
  have h := runDetector_intensity_inv (l := l) (d := mkBeatDetector o) hdr0 hdr1
    (by simp [mkBeatDetector]) le_rfl zero_le_one (fun p hp => (hl p hp).1)
  exact ⟨h.2.1, h.2.2⟩

/-- Witness for C1 at the default configuration and a concrete input. -/
theorem claim_C1_witness :
    (0 ≤ (mkBeatDetector BeatOptions.default).sensitivity) ∧
    (0 ≤ (mkBeatDetector BeatOptions.default).decayRate) ∧
    ((mkBeatDetector BeatOptions.default).decayRate ≤ 1) ∧
    (∀ p ∈ [((1:ℚ)/2, (16:ℚ))], 0 ≤ p.1 ∧ p.1 ≤ 1) ∧
    (0 ≤ (runDetector (mkBeatDetector BeatOptions.default) [(1/2, 16)]).getBeatIntensity ∧
      (runDetector (mkBeatDetector BeatOptions.default) [(1/2, 16)]).getBeatIntensity ≤ 1) := by
  have hs : 0 ≤ (mkBeatDetector BeatOptions.default).sensitivity := by
    norm_num [mkBeatDetector, BeatOptions.default, orDefault]
  have h0 : 0 ≤ (mkBeatDetector BeatOptions.default).decayRate := by
    norm_num [mkBeatDetector, BeatOptions.default, orDefault]
  have h1 : (mkBeatDetector BeatOptions.default).decayRate ≤ 1 := by
    norm_num [mkBeatDetector, BeatOptions.default, orDefault]
  have hl : ∀ p ∈ [((1:ℚ)/2, (16:ℚ))], 0 ≤ p.1 ∧ p.1 ≤ 1 := by
    intro p hp
    fin_cases hp <;> norm_num
  exact ⟨hs, h0, h1, hl,
    claim_C1_beat_intensity_unit_interval BeatOptions.default hs h0 h1 _ hl⟩

/-! ## Two reported beats are more than `cooldownMs` apart (C2) -/

/-- C2: along any run with non-decreasing timestamps, if an update at
timestamp `t₁` reports a beat and a later update at timestamp `t₂` also
reports a beat, then `t₂ - t₁ > cooldownMs`. -/
theorem claim_C2_beats_cooldown_apart (o : BeatOptions) (l₁ l₂ : List (ℚ × ℚ))
    (e₁ t₁ e₂ t₂ : ℚ)
    (hsorted : List.Sorted (· ≤ ·) ((l₁ ++ (e₁, t₁) :: (l₂ ++ [(e₂, t₂)])).map Prod.snd))
    (hb₁ : (runDetector (mkBeatDetector o) (l₁ ++ [(e₁, t₁)])).isBeat = true)
    (hb₂ : (runDetector (mkBeatDetector o) (l₁ ++ (e₁, t₁) :: (l₂ ++ [(e₂, t₂)]))).isBeat = true) :
    (mkBeatDetector o).cooldownMs < t₂ - t₁ := by
  have hsub : List.Sorted (· ≤ ·) (((e₁, t₁) :: (l₂ ++ [(e₂, t₂)])).map Prod.snd) :=
    List.Pairwise.sublist
      (List.Sublist.map Prod.snd (List.sublist_append_right l₁ _)) hsorted
  rw [List.map_cons] at hsub
  have hsub' := List.sorted_cons.mp hsub
  have hl₂ts : ∀ p ∈ l₂, t₁ ≤ p.2 := fun p hp =>
    hsub'.1 p.2 (List.mem_map_of_mem Prod.snd (List.mem_append_left _ hp))
  have ht₁₂ : t₁ ≤ t₂ :=
    hsub'.1 t₂ (by simp)
  have hsplit : l₁ ++ (e₁, t₁) :: (l₂ ++ [(e₂, t₂)]) =
      (l₁ ++ [(e₁, t₁)]) ++ (l₂ ++ [(e₂, t₂)]) := by simp
  rw [hsplit, runDetector_append] at hb₂
  have hlast : (runDetector (mkBeatDetector o) (l₁ ++ [(e₁, t₁)])).lastBeatTime = t₁ := by
    rw [runDetector_append]
    exact (update_isBeat_elim
      (show ((runDetector (mkBeatDetector o) l₁).update e₁ t₁).isBeatFlag = true by
        have hb₁' := hb₁
        rw [runDetector_append] at hb₁'
        exact hb₁')).2
  rw [runDetector_append] at hb₂
  have hfinal := update_isBeat_elim
    (show ((runDetector (runDetector (mkBeatDetector o) (l₁ ++ [(e₁, t₁)])) l₂).update
        e₂ t₂).isBeatFlag = true from hb₂)
  have hge : t₁ ≤ (runDetector (runDetector (mkBeatDetector o) (l₁ ++ [(e₁, t₁)])) l₂).lastBeatTime :=
    runDetector_lastBeatTime_ge hl₂ts (le_of_eq hlast.symm)
  have hcool : (runDetector (runDetector (mkBeatDetector o) (l₁ ++ [(e₁, t₁)])) l₂).cooldownMs =
      (mkBeatDetector o).cooldownMs := by
    rw [runDetector_cooldownMs, runDetector_cooldownMs]
  rw [hcool] at hfinal
  linarith [hfinal.1]

/-- Witness for C2: a concrete monotone run in which beats fire at
timestamps 300 and 600 (more than the 180 ms default cooldown apart). -/
theorem claim_C2_witness :
    List.Sorted (· ≤ ·)
      ((([((0:ℚ),(0:ℚ)),(0,1),(0,2),(0,3),(0,4),(0,5),(0,6),(0,7),(0,8),(0,9)]
        ++ ((1:ℚ), (300:ℚ)) :: ([] ++ [((1:ℚ), (600:ℚ))])).map Prod.snd)) ∧
    (runDetector (mkBeatDetector BeatOptions.default)
      ([((0:ℚ),(0:ℚ)),(0,1),(0,2),(0,3),(0,4),(0,5),(0,6),(0,7),(0,8),(0,9)]
        ++ [(1, 300)])).isBeat = true ∧
    (runDetector (mkBeatDetector BeatOptions.default)
      ([((0:ℚ),(0:ℚ)),(0,1),(0,2),(0,3),(0,4),(0,5),(0,6),(0,7),(0,8),(0,9)]
        ++ ((1:ℚ), (300:ℚ)) :: ([] ++ [((1:ℚ), (600:ℚ))]))).isBeat = true ∧
    (mkBeatDetector BeatOptions.default).cooldownMs < 600 - 300 := by
  have hsorted : List.Sorted (· ≤ ·)
      ((([((0:ℚ),(0:ℚ)),(0,1),(0,2),(0,3),(0,4),(0,5),(0,6),(0,7),(0,8),(0,9)]
        ++ ((1:ℚ), (300:ℚ)) :: ([] ++ [((1:ℚ), (600:ℚ))])).map Prod.snd)) := by
    norm_num [List.sorted_cons]
  have hb₁ : (runDetector (mkBeatDetector BeatOptions.default)
      ([((0:ℚ),(0:ℚ)),(0,1),(0,2),(0,3),(0,4),(0,5),(0,6),(0,7),(0,8),(0,9)]
        ++ [(1, 300)])).isBeat = true := by
    norm_num [runDetector, BeatDetector.update, BeatDetector.updateTempoEstimate,
      BeatDetector.isBeat, pushCapped, exceedsThreshold, mkBeatDetector,
      BeatOptions.default, orDefault, orDefaultNat]
  have hb₂ : (runDetector (mkBeatDetector BeatOptions.default)
      ([((0:ℚ),(0:ℚ)),(0,1),(0,2),(0,3),(0,4),(0,5),(0,6),(0,7),(0,8),(0,9)]
        ++ ((1:ℚ), (300:ℚ)) :: ([] ++ [((1:ℚ), (600:ℚ))]))).isBeat = true := by
    norm_num [runDetector, BeatDetector.update, BeatDetector.updateTempoEstimate,
      BeatDetector.isBeat, pushCapped, exceedsThreshold, mkBeatDetector,
      BeatOptions.default, orDefault, orDefaultNat]
  exact ⟨hsorted, hb₁, hb₂,
    claim_C2_beats_cooldown_apart BeatOptions.default _ [] 1 300 1 600 hsorted hb₁ hb₂⟩

/-! ## DemoRunner lifecycle (C8)

Model of the `DemoRunner` class.  Demo classes, canvases and option bags
are opaque handles (`ℕ`); a demo instance records the class it was
constructed from, the canvas and options it was bound to, and the
`isRunning` flag managed by `BaseDemo.start()/stop()`.  `destroy()` of the
previous instance is modelled by dropping it from the runner state. -/

/-- A constructed demo instance (`new DemoClass(canvas, options)` plus the
`BaseDemo` running flag, which the constructor initialises to `false`). -/
structure DemoInstance where
  cls : ℕ
  canvas : ℕ
  opts : ℕ
  isRunning : Bool
  deriving DecidableEq

/-- `new DemoClass(canvas, options)`. -/
def newDemoInstance (cls canvas opts : ℕ) : DemoInstance :=
  { cls := cls, canvas := canvas, opts := opts, isRunning := false }

/-- `BaseDemo.start()`. -/
def DemoInstance.start (i : DemoInstance) : DemoInstance :=
  { i with isRunning := true }

/-- The `DemoRunner` state: the id → class registry (a `Map`, modelled by
an association list where `register` prepends, shadowing older entries),
the optional current demo, the optional canvas and the current options. -/
structure DemoRunner where
  registry : List (String × ℕ)
  currentDemo : Option DemoInstance
  canvas : Option ℕ
  currentOptions : ℕ
  deriving DecidableEq

/-- `new DemoRunner()`. -/
def DemoRunner.new : DemoRunner :=
  { registry := [], currentDemo := none, canvas := none, currentOptions := 0 }

/-- `setCanvas(canvas)`. -/
def DemoRunner.setCanvas (r : DemoRunner) (canvas : ℕ) : DemoRunner :=
  { r with canvas := some canvas }

/-- `register(id, DemoClass)` — overwrite-by-id (the new entry shadows any
older one under `List.lookup`). -/
def DemoRunner.register (r : DemoRunner) (id : String) (cls : ℕ) : DemoRunner :=
  { r with registry := (id, cls) :: r.registry }

/-- `stop()` — destroy and drop the current demo, if any. -/
def DemoRunner.stop (r : DemoRunner) : DemoRunner :=
  match r.currentDemo with
  | some _ => { r with currentDemo := none }
  | none => r

/-- `load(id, options)`: fail (returning `false`, state untouched) when no
canvas is set or the id is not registered; otherwise stop the current demo,
construct a new instance of the registered class on the canvas, start it,
and return `true`. -/
def DemoRunner.load (r : DemoRunner) (id : String) (opts : ℕ) : Bool × DemoRunner :=
  match r.canvas with
  | none => (false, r)
  | some cv =>
    match List.lookup id r.registry with
    | none => (false, r)
    | some cls =>
      let r1 := r.stop
      (true, { r1 with currentDemo := some ((newDemoInstance cls cv opts).start)
                       currentOptions := opts })

/-- C8: `load` fails with `false` and leaves the runner state (including
the active demo) unchanged when no canvas is bound or the id is unknown;
with a canvas and a registered id it stops/destroys the current demo,
replaces it by a freshly constructed, started instance of the registered
class on the bound canvas, and returns `true`. -/
theorem claim_C8_load_spec (r : DemoRunner) (id : String) (opts : ℕ) :
    (r.canvas = none → r.load id opts = (false, r)) ∧
    (∀ cv, r.canvas = some cv → List.lookup id r.registry = none →
      r.load id opts = (false, r)) ∧
    (∀ cv cls, r.canvas = some cv → List.lookup id r.registry = some cls →
      r.load id opts =
        (true, { r.stop with
                   currentDemo := some { cls := cls, canvas := cv, opts := opts,
                                         isRunning := true }
                   currentOptions := opts })) := by
  refine ⟨?_, ?_, ?_⟩
  · intro hc
    simp [DemoRunner.load, hc]
  · intro cv hc hr
    simp [DemoRunner.load, hc, hr]
  · intro cv cls hc hr
    simp [DemoRunner.load, hc, hr, newDemoInstance, DemoInstance.start]

/-- Witness for C8: all three branches at concrete runner states. -/
theorem claim_C8_witness :
    (DemoRunner.load { registry := [("fireworks", 5)], currentDemo := none,
                       canvas := none, currentOptions := 0 } "fireworks" 7 =
      (false, { registry := [("fireworks", 5)], currentDemo := none,
                canvas := none, currentOptions := 0 })) ∧
    (DemoRunner.load { registry := [("fireworks", 5)], currentDemo := none,
                       canvas := some 3, currentOptions := 0 } "unknown" 7 =
      (false, { registry := [("fireworks", 5)], currentDemo := none,
                canvas := some 3, currentOptions := 0 })) ∧
    (DemoRunner.load { registry := [("fireworks", 5)],
                       currentDemo := some { cls := 9, canvas := 3, opts := 1, isRunning := true },
                       canvas := some 3, currentOptions := 1 } "fireworks" 7 =
      (true, { registry := [("fireworks", 5)],
               currentDemo := some { cls := 5, canvas := 3, opts := 7, isRunning := true },
               canvas := some 3, currentOptions := 7 })) := by
  refine ⟨?_, ?_, ?_⟩
  · exact (claim_C8_load_spec _ "fireworks" 7).1 rfl
  · exact (claim_C8_load_spec _ "unknown" 7).2.1 3 rfl (by simp [List.lookup])
  · exact ((claim_C8_load_spec _ "fireworks" 7).2.2 3 5 rfl (by simp [List.lookup])).trans
      (by simp [DemoRunner.stop])

/-! ## Tempo estimation (C5) -/

/-- The tempo-estimation recipe exactly as worded by claim C5 and the
spec: consecutive intervals of the recorded beat times, discarding
intervals *outside the closed range* `[200 ms, 2000 ms]`; with at least 4
beat timestamps and at least 3 valid intervals the estimate becomes
`round (60000 / median)`, otherwise the previous value is kept. -/
def claimedTempo (beatTimes : List ℚ) (prev : ℤ) : ℤ :=
  if 4 ≤ beatTimes.length then
    let valid := (intervalsOf beatTimes).filter fun i => decide (200 ≤ i ∧ i ≤ 2000)
    if 3 ≤ valid.length then
      round ((60000 : ℚ) / ((List.insertionSort (· ≤ ·) valid).getD (valid.length / 2) 0))
    else prev
  else prev

/-- The tempo-estimation recipe with the *open* interval `(200, 2000)`
actually used by the source (`interval > 200 && interval < 2000`). -/
def tempoSpec (beatTimes : List ℚ) (prev : ℤ) : ℤ :=
  if 4 ≤ beatTimes.length then
    let valid := (intervalsOf beatTimes).filter fun i => decide (200 < i ∧ i < 2000)
    if 3 ≤ valid.length then
      round ((60000 : ℚ) / ((List.insertionSort (· ≤ ·) valid).getD (valid.length / 2) 0))
    else prev
  else prev

theorem updateTempoEstimate_estimatedBPM (d : BeatDetector) :
    d.updateTempoEstimate.estimatedBPM = tempoSpec d.beatTimes d.estimatedBPM := by
  unfold BeatDetector.updateTempoEstimate tempoSpec
  dsimp only
  rcases Nat.lt_or_ge d.beatTimes.length 4 with h4 | h4
  · rw [if_pos h4, if_neg (by omega)]
  · rw [if_neg (Nat.not_lt.mpr h4), if_pos h4]
    rcases Nat.lt_or_ge
        ((intervalsOf d.beatTimes).filter fun i => decide (200 < i ∧ i < 2000)).length 3 with
      h3 | h3
    · rw [if_pos h3, if_neg (by omega)]
    · rw [if_neg (Nat.not_lt.mpr h3), if_pos h3, List.length_insertionSort]

/-- C5 (amended: the valid-interval window is the open interval
`(200 ms, 2000 ms)`, as in the source, not the closed one): whenever an
update records a beat, `getBPM()` is recomputed from the (≤ 16) stored
beat timestamps by the median-of-valid-intervals recipe, keeping its old
value when fewer than 4 timestamps or fewer than 3 valid intervals exist;
on any update without a beat it is unchanged. -/
theorem claim_C5_amended_tempo (d : BeatDetector) (e t : ℚ) :
    (d.update e t).getBPM =
      if (d.update e t).isBeatFlag = true
      then tempoSpec (d.update e t).beatTimes d.getBPM
      else d.getBPM := by
  simp only [BeatDetector.update, BeatDetector.getBPM]
  split
  · simp
  · split
    · simp [updateTempoEstimate_estimatedBPM]
    · simp

/-- Input driving the detector to four recorded beats at timestamps
`[200, 400, 600, 800]`: ten zero warm-up samples, then a unit spike and
three zeros every 200 ms. -/
def c5Input : List (ℚ × ℚ) :=
  [((0:ℚ),(0:ℚ)),(0,1),(0,2),(0,3),(0,4),(0,5),(0,6),(0,7),(0,8),(0,9),
   (1,200),(0,201),(0,202),(0,203),
   (1,400),(0,401),(0,402),(0,403),
   (1,600),(0,601),(0,602),(0,603)]

/-- Counterexample to C5 as stated: after four beats at timestamps
`[200, 400, 600, 800]` (inter-beat intervals of exactly 200 ms), the
update that records the fourth beat leaves `getBPM() = 0`, while the
claimed closed-interval recipe yields `300`: the source discards the
boundary interval 200 ms (`interval > 200` is strict). -/
theorem claim_C5_counterexample :
    (((runDetector (mkBeatDetector BeatOptions.default) c5Input).update 1 800).isBeatFlag
        = true ∧
      ((runDetector (mkBeatDetector BeatOptions.default) c5Input).update 1 800).beatTimes
        = [200, 400, 600, 800] ∧
      (runDetector (mkBeatDetector BeatOptions.default) c5Input).estimatedBPM = 0 ∧
      ((runDetector (mkBeatDetector BeatOptions.default) c5Input).update 1 800).getBPM = 0) ∧
    claimedTempo [200, 400, 600, 800] 0 = 300 ∧ (0 : ℤ) ≠ 300 := by
  have hpre : runDetector (mkBeatDetector BeatOptions.default) c5Input =
      { sensitivity := 7/5, decayRate := 93/100, cooldownMs := 180, historyLength := 30,
        energyHistory := [0,0,0,0,0,0,0,0,0,0,1,0,0,0,1,0,0,0,1,0,0,0],
        lastBeatTime := 600, beatIntensity := 74805201/100000000, isBeatFlag := false,
        beatCount := 3, beatTimes := [200,400,600], estimatedBPM := 0 } := by
    norm_num [c5Input, runDetector, BeatDetector.update, BeatDetector.updateTempoEstimate,
      pushCapped, exceedsThreshold, mkBeatDetector, BeatOptions.default, orDefault,
      orDefaultNat, intervalsOf]
  have hpost : (runDetector (mkBeatDetector BeatOptions.default) c5Input).update 1 800 =
      { sensitivity := 7/5, decayRate := 93/100, cooldownMs := 180, historyLength := 30,
        energyHistory := [0,0,0,0,0,0,0,0,0,0,1,0,0,0,1,0,0,0,1,0,0,0,1],
        lastBeatTime := 800, beatIntensity := 93/100, isBeatFlag := true,
        beatCount := 4, beatTimes := [200,400,600,800], estimatedBPM := 0 } := by
    rw [hpre]
    norm_num [BeatDetector.update, BeatDetector.updateTempoEstimate,
      pushCapped, exceedsThreshold, intervalsOf]
  refine ⟨⟨?_, ?_, ?_, ?_⟩, ?_, by norm_num⟩
  · rw [hpost]
  · rw [hpost]
  · rw [hpre]
  · rw [hpost]; rfl
  · norm_num [claimedTempo, intervalsOf, List.insertionSort, List.orderedInsert, round_eq]

/-! ## The ten-zeros-then-spike scenario (C7) -/

/-- A zero-energy update on a detector with non-negative recorded energies
never reports a beat: the window only grows by the pushed sample, the flag
clears, and the intensity decays exactly when the window has reached 10
samples. -/
theorem update_zero (d : BeatDetector) (t : ℚ) (hh : ∀ x ∈ d.energyHistory, 0 ≤ x) :
    d.update 0 t = { d with
      energyHistory := pushCapped d.historyLength d.energyHistory 0
      isBeatFlag := false
      beatIntensity := if (pushCapped d.historyLength d.energyHistory 0).length < 10
                       then d.beatIntensity else d.beatIntensity * d.decayRate } := by
  simp only [BeatDetector.update]
  split
  · rfl
  · next h =>
    split
    · next hcond =>
      exfalso
      obtain ⟨⟨h1, -⟩, -, -⟩ := hcond
      have hall : ∀ x ∈ pushCapped d.historyLength d.energyHistory 0, 0 ≤ x := fun x hx =>
        (pushCapped_mem hx).elim (hh x) (fun he => he ▸ le_rfl)
      have h2 : 0 ≤ (pushCapped d.historyLength d.energyHistory 0).sum /
          ((pushCapped d.historyLength d.energyHistory 0).length : ℚ) :=
        div_nonneg (List.sum_nonneg hall) (Nat.cast_nonneg _)
      linarith
    · rfl

/-- One warm-up step: pushing a zero into a short (< 10 after push)
all-zero-compatible window of the initial state just appends it. -/
theorem warm_step (h : List ℚ) (t : ℚ) (hall : ∀ x ∈ h, (0:ℚ) ≤ x)
    (hlen : h.length + 1 ≤ 10) :
    (BeatDetector.mk (7/5) (93/100) 180 30 h 0 0 false 0 [] 0).update 0 t =
      BeatDetector.mk (7/5) (93/100) 180 30 (h ++ [0]) 0 0 false 0 [] 0 := by
  rw [update_zero _ _ hall]
  have hp : pushCapped 30 h 0 = h ++ [0] := by
    unfold pushCapped
    dsimp only
    rw [if_neg (by simp; omega)]
  have hi : (if (pushCapped (30:ℕ) h 0).length < 10 then (0:ℚ) else 0 * (93/100)) = 0 := by
    split <;> norm_num
  simp only [hp] at hi ⊢
  rw [hi]

/-- Feeding zeros (with arbitrary timestamps) to the warm-up-phase initial
state just accumulates zeros in the window. -/
theorem warm_run : ∀ (ts : List ℚ) (h : List ℚ), (∀ x ∈ h, (0:ℚ) ≤ x) →
    h.length + ts.length ≤ 10 →
    runDetector (BeatDetector.mk (7/5) (93/100) 180 30 h 0 0 false 0 [] 0)
        (ts.map fun t => ((0:ℚ), t)) =
      BeatDetector.mk (7/5) (93/100) 180 30 (h ++ List.replicate ts.length 0) 0 0 false 0 [] 0 := by
  intro ts
  induction ts with
  | nil =>
    intro h _ _
    simp [runDetector]
  | cons t rest ih =>
    intro h hall hlen
    simp only [List.map_cons, runDetector, List.length_cons]
    rw [warm_step h t hall (by simp only [List.length_cons] at hlen; omega)]
    rw [ih (h ++ [0])
      (by
        intro x hx
        rcases List.mem_append.mp hx with hx | hx
        · exact hall x hx
        · rw [List.mem_singleton.mp hx])
      (by simp at hlen ⊢; omega)]
    simp [List.append_assoc, List.replicate_succ]

/-- The spike step: with ten zeros in the window, a unit-energy update at a
timestamp past the cooldown fires a beat of (clamped, then decayed)
intensity `0.93`. -/
theorem spike_step (t : ℚ) (hc : (180:ℚ) < t) :
    (BeatDetector.mk (7/5) (93/100) 180 30 (List.replicate 10 0) 0 0 false 0 [] 0).update 1 t =
      BeatDetector.mk (7/5) (93/100) 180 30 (List.replicate 10 0 ++ [1]) t (93/100)
        true 1 [t] 0 := by
  simp only [BeatDetector.update]
  have hp : pushCapped (30:ℕ) (List.replicate 10 (0:ℚ)) 1 = List.replicate 10 0 ++ [1] := by
    norm_num [pushCapped]
  rw [show pushCapped
      (BeatDetector.mk (7/5) (93/100) 180 30 (List.replicate 10 0) 0 0 false 0 [] 0).historyLength
      (BeatDetector.mk (7/5) (93/100) 180 30 (List.replicate 10 0) 0 0 false 0 [] 0).energyHistory
      1 = List.replicate 10 0 ++ [1] from hp]
  rw [if_neg (by norm_num)]
  split
  · next hcond =>
    norm_num [BeatDetector.updateTempoEstimate, pushCapped]
  · next hcond =>
    exfalso
    apply hcond
    refine ⟨⟨by norm_num, by norm_num⟩, by norm_num, ?_⟩
    show (180:ℚ) < t - 0
    linarith

/-- Zero-energy inputs preserve non-negativity of the window, keep it at
length ≥ 10, and record no further beats. -/
theorem runZeros (ts : List ℚ) : ∀ d : BeatDetector,
    (∀ x ∈ d.energyHistory, 0 ≤ x) → 10 ≤ d.energyHistory.length →
    (∀ x ∈ (runDetector d (ts.map fun t => ((0:ℚ), t))).energyHistory, 0 ≤ x) ∧
    10 ≤ (runDetector d (ts.map fun t => ((0:ℚ), t))).energyHistory.length ∧
    (runDetector d (ts.map fun t => ((0:ℚ), t))).beatCount = d.beatCount := by
  induction ts with
  | nil => exact fun d h1 h2 => ⟨h1, h2, rfl⟩
  | cons t rest ih =>
    intro d h1 h2
    simp only [List.map_cons, runDetector]
    have hall : ∀ x ∈ pushCapped d.historyLength d.energyHistory 0, 0 ≤ x := fun x hx =>
      (pushCapped_mem hx).elim (h1 x) (fun he => he ▸ le_rfl)
    have hlen : 10 ≤ (pushCapped d.historyLength d.energyHistory 0).length :=
      le_trans h2 (length_le_pushCapped _ _ _)
    have hstep := update_zero d t h1
    have h3 : ∀ x ∈ (d.update 0 t).energyHistory, 0 ≤ x := by rw [hstep]; exact hall
    have h4 : 10 ≤ (d.update 0 t).energyHistory.length := by rw [hstep]; exact hlen
    have h5 : (d.update 0 t).beatCount = d.beatCount := by rw [hstep]
    obtain ⟨a, b, c⟩ := ih (d.update 0 t) h3 h4
    exact ⟨a, b, c.trans h5⟩

/-- A zero-energy update on an active-phase (window ≥ 10) detector with a
non-negative window multiplies the intensity by `decayRate` and records no
beat. -/
theorem update_zero_decay {d : BeatDetector} (t : ℚ) (hh : ∀ x ∈ d.energyHistory, 0 ≤ x)
    (hlen : 10 ≤ d.energyHistory.length) :
    (d.update 0 t).beatIntensity = d.beatIntensity * d.decayRate := by
  rw [update_zero d t hh]
  have hn : ¬ (pushCapped d.historyLength d.energyHistory 0).length < 10 :=
    Nat.not_lt.mpr (le_trans hlen (length_le_pushCapped _ _ _))
  dsimp only
  rw [if_neg hn]

/-- The claim-C7 input stream: ten zero-energy samples at 16 ms spacing
starting at `t0`, a unit spike at the 11th sample (`t0 + 160`), then `n`
further zero samples at 16 ms spacing. -/
def spikeScenario (t0 : ℚ) (n : ℕ) : List (ℚ × ℚ) :=
  (((List.range 10).map fun (k : ℕ) => t0 + 16 * (k:ℚ)).map fun t => ((0:ℚ), t)) ++
    ((1:ℚ), t0 + 160) ::
      (((List.range n).map fun (k : ℕ) => t0 + 176 + 16 * (k:ℚ)).map fun t => ((0:ℚ), t))

theorem spikeScenario_state (t0 : ℚ) (h20 : 20 < t0) (n : ℕ) :
    runDetector (mkBeatDetector BeatOptions.default) (spikeScenario t0 n) =
      runDetector
        (BeatDetector.mk (7/5) (93/100) 180 30 (List.replicate 10 0 ++ [1]) (t0 + 160)
          (93/100) true 1 [t0 + 160] 0)
        (((List.range n).map fun (k : ℕ) => t0 + 176 + 16 * (k:ℚ)).map fun t => ((0:ℚ), t)) := by
  have hd0 : mkBeatDetector BeatOptions.default =
      BeatDetector.mk (7/5) (93/100) 180 30 [] 0 0 false 0 [] 0 := rfl
  rw [spikeScenario, runDetector_append, hd0]
  rw [warm_run _ [] (by simp) (by simp)]
  simp only [runDetector, List.nil_append, List.length_map, List.length_range]
  rw [spike_step (t0 + 160) (by linarith)]

/-- C7: with the cooldown satisfied at the spike (`t0 > 20`, e.g. any
session that has been running longer than 20 ms), feeding ten zeros, a
unit spike, then `n` zeros at 16 ms spacing makes `isBeat()` true at the
11th sample, records exactly one beat over the whole sequence
(`getBeatCount() = 1`), and multiplies `getBeatIntensity()` by `decayRate`
on every following zero sample. -/
theorem claim_C7_spike_scenario (t0 : ℚ) (h20 : 20 < t0) (n : ℕ) :
    (runDetector (mkBeatDetector BeatOptions.default) (spikeScenario t0 0)).isBeat = true ∧
    (runDetector (mkBeatDetector BeatOptions.default) (spikeScenario t0 n)).getBeatCount = 1 ∧
    ∀ k, k < n →
      (runDetector (mkBeatDetector BeatOptions.default)
          (spikeScenario t0 (k+1))).getBeatIntensity =
        (runDetector (mkBeatDetector BeatOptions.default)
            (spikeScenario t0 k)).getBeatIntensity *
          (mkBeatDetector BeatOptions.default).decayRate := by
  have hspike : ∀ x ∈ List.replicate 10 (0:ℚ) ++ [1], (0:ℚ) ≤ x := by
    intro x hx
    rcases List.mem_append.mp hx with hx | hx
    · rw [List.eq_of_mem_replicate hx]
    · rw [List.mem_singleton.mp hx]
      norm_num
  have hspikelen : (10:ℕ) ≤ (List.replicate 10 (0:ℚ) ++ [1]).length := by simp
  refine ⟨?_, ?_, ?_⟩
  · rw [spikeScenario_state t0 h20 0]
    rfl
  · rw [spikeScenario_state t0 h20 n]
    exact (runZeros _ _ hspike hspikelen).2.2
  · intro k hk
    have hsucc : spikeScenario t0 (k+1) =
        spikeScenario t0 k ++ [((0:ℚ), t0 + 176 + 16 * (k:ℚ))] := by
      simp [spikeScenario, List.range_succ]
    rw [hsucc, runDetector_append]
    have hinv := runZeros (((List.range k).map fun (j : ℕ) => t0 + 176 + 16 * (j:ℚ)))
      (BeatDetector.mk (7/5) (93/100) 180 30 (List.replicate 10 0 ++ [1]) (t0 + 160)
        (93/100) true 1 [t0 + 160] 0) hspike hspikelen
    have hrun := spikeScenario_state t0 h20 k
    show ((runDetector (mkBeatDetector BeatOptions.default) (spikeScenario t0 k)).update
        0 (t0 + 176 + 16 * (k:ℚ))).beatIntensity = _
    rw [← hrun] at hinv
    rw [update_zero_decay _ hinv.1 hinv.2.1]
    rw [runDetector_decayRate]
    rfl

/-- Witness for C7 at `t0 = 1000`, `n = 2`. -/
theorem claim_C7_witness :
    (20:ℚ) < 1000 ∧
    ((runDetector (mkBeatDetector BeatOptions.default) (spikeScenario 1000 0)).isBeat = true ∧
     (runDetector (mkBeatDetector BeatOptions.default) (spikeScenario 1000 2)).getBeatCount = 1 ∧
     ∀ k, k < 2 →
       (runDetector (mkBeatDetector BeatOptions.default)
           (spikeScenario 1000 (k+1))).getBeatIntensity =
         (runDetector (mkBeatDetector BeatOptions.default)
             (spikeScenario 1000 k)).getBeatIntensity *
           (mkBeatDetector BeatOptions.default).decayRate) :=
  ⟨by norm_num, claim_C7_spike_scenario 1000 (by norm_num) 2⟩

end CanvasExperiments
